import Mathlib

/-!
Shallow embedding of `src/photoeccentric/photoeccentric.py` (the statistical
core of the `photoeccentric` package) and proofs about the frozen claims.

Modelling conventions:
* NumPy double arithmetic is modelled over `ℝ`; `np.nan` results are modelled
  by `Option` (`none` = NaN) where a function's NaN policy is the point of a
  claim.  For the one claim that distinguishes IEEE `inf` from NaN the same
  source function is additionally modelled over `ℝ≥0∞` (see
  `get_rho_circ_ieee`), where division of a positive quantity by zero gives
  `⊤`, exactly as IEEE division of a positive double by `0.0` gives `inf`.
* NumPy arrays are `List ℝ`.  The Python functions index all input arrays by
  `j in range(len(p))`; mismatched lengths raise `IndexError` in Python and
  are outside every claim, so the list recursions below simply stop at the
  shortest list.
* In-place mutation of the caller's `p` array (the duration functions assign
  `p[j] = p[j]*86400`) is modelled by explicit state passing: the duration
  functions return the value of the `p` array after the call alongside their
  result.
* `scipy.constants.G` is the CODATA value `6.67430e-11`; `np.pi`/`c.pi` is
  modelled as `Real.pi`.
-/

open scoped ENNReal

/-- Return type of `get_T14`/`get_T23` (photoeccentric.py lines 41-141): the
Python code returns either a scalar float (the early `return` inside the loop
when `ecc_prior=True`) or a full NumPy array. -/
inductive PyRet where
  | scalar : ℝ → PyRet
  | array : List ℝ → PyRet

/-- Tests whether a `PyRet` value is the array form. -/
def PyRet.isArr : PyRet → Bool
  | .scalar _ => false
  | .array _ => true

/-- Loop body of `get_T14` (line 84) for one index `j`, after the in-place
update `p[j] = p[j]*86400` (line 79): with `rs_a = 1/a_rs[j]` and
`b = a_rs[j]*cos(i[j]*pi/180)`,
`T14[j] = (p[j]/pi)*arcsin(rs_a*sqrt((1+rprs[j])^2 - b^2)/sin(i[j]*pi/180))`. -/
noncomputable def T14elem (pj kj aj ij : ℝ) : ℝ :=
  ((pj * 86400) / Real.pi) *
    Real.arcsin ((1 / aj) *
      Real.sqrt ((1 + kj) ^ 2 - (aj * Real.cos (ij * (Real.pi / 180))) ^ 2) /
      Real.sin (ij * (Real.pi / 180)))

/-- Loop body of `get_T23` (line 135) for one index `j`: identical to
`T14elem` except that the `*86400` rescaling is commented out in the source
(line 130) and `(1-rprs[j])^2` replaces `(1+rprs[j])^2`. -/
noncomputable def T23elem (pj kj aj ij : ℝ) : ℝ :=
  (pj / Real.pi) *
    Real.arcsin ((1 / aj) *
      Real.sqrt ((1 - kj) ^ 2 - (aj * Real.cos (ij * (Real.pi / 180))) ^ 2) /
      Real.sin (ij * (Real.pi / 180)))

/-- Eccentricity factor `chidot[j] = sqrt(1-e[j]^2)/(1+e[j]*sin(w[j]*pi/180))`
(lines 87 and 138). -/
noncomputable def chidot (ej wj : ℝ) : ℝ :=
  Real.sqrt (1 - ej ^ 2) / (1 + ej * Real.sin (wj * (Real.pi / 180)))

/-- The full `ecc_prior=False` loop of `get_T14`: elementwise `T14elem` over
the four parallel input arrays. -/
noncomputable def T14core : List ℝ → List ℝ → List ℝ → List ℝ → List ℝ
  | pj :: pt, kj :: kt, aj :: at1, ij :: it1 => T14elem pj kj aj ij :: T14core pt kt at1 it1
  | _, _, _, _ => []

/-- The full `ecc_prior=False` loop of `get_T23`: elementwise `T23elem`. -/
noncomputable def T23core : List ℝ → List ℝ → List ℝ → List ℝ → List ℝ
  | pj :: pt, kj :: kt, aj :: at1, ij :: it1 => T23elem pj kj aj ij :: T23core pt kt at1 it1
  | _, _, _, _ => []

/-- `get_T14` (lines 41-90).  First component: the returned value — with
`ecc_prior=True` and nonempty inputs the loop hits `return T14[0]*chidot[0]`
on its first iteration and yields a scalar; otherwise the full array is
returned.  Second component: the caller's `p` array after the call — the loop
overwrites `p[j] = p[j]*86400` for every index it visits (all of them when
`ecc_prior=False`, only index 0 when the early return fires). -/
noncomputable def get_T14 (p rprs a_rs i : List ℝ) (ecc_pr : Bool) (e w : List ℝ) :
    PyRet × List ℝ :=
  match ecc_pr with
  | false => (PyRet.array (T14core p rprs a_rs i), p.map (fun x => x * 86400))
  | true =>
    match p, rprs, a_rs, i, e, w with
    | pj :: pt, kj :: _, aj :: _, ij :: _, ej :: _, wj :: _ =>
        (PyRet.scalar (T14elem pj kj aj ij * chidot ej wj), (pj * 86400) :: pt)
    | _, _, _, _, _, _ =>
        (PyRet.array (T14core p rprs a_rs i), p.map (fun x => x * 86400))

/-- `get_T23` (lines 93-141).  Same shape as `get_T14` but the in-place
rescaling of `p` is commented out (`p[j] = p[j]` is the identity), so the
caller's `p` array is returned unchanged. -/
noncomputable def get_T23 (p rprs a_rs i : List ℝ) (ecc_pr : Bool) (e w : List ℝ) :
    PyRet × List ℝ :=
  (match ecc_pr with
   | false => PyRet.array (T23core p rprs a_rs i)
   | true =>
     match p, rprs, a_rs, i, e, w with
     | pj :: _, kj :: _, aj :: _, ij :: _, ej :: _, wj :: _ =>
         PyRet.scalar (T23elem pj kj aj ij * chidot ej wj)
     | _, _, _, _, _, _ =>
         PyRet.array (T23core p rprs a_rs i), p)

/-- `scipy.constants.G` (CODATA 2018). -/
noncomputable def Gval : ℝ := 6.67430e-11

/-- `get_rho_circ` (lines 168-195).  `delta = rprs**2`; for a double
`delta >= 0` the NumPy power `delta**0.25` is the real fourth root, written
here as an iterated square root.  The `else` branch returns `np.nan`,
modelled as `none`. -/
noncomputable def get_rho_circ (rprs T14 T23 p : ℝ) : Option ℝ :=
  if T23 ≤ T14 then
    some ((((2 * Real.sqrt (Real.sqrt (rprs ^ 2))) / Real.sqrt (T14 ^ 2 - T23 ^ 2)) ^ 3) *
      ((3 * p) / (Gval * Real.pi ^ 2)))
  else none

/-- `get_rho_circ` again (same lines 168-195), under the IEEE semantics of
the nonnegative doubles actually flowing through it, modelled over `ℝ≥0∞`:
`x/0 = ⊤` for `x ≠ 0` exactly as `x/0.0 = inf` for a positive double, and
`x**0.25`/`np.sqrt` are `rpow` with exponents `1/4` and `1/2`.  Used for the
claim that distinguishes the `inf` produced at `T14 == T23` from the NaN
marker (`none`) of the `T14 < T23` branch. -/
noncomputable def get_rho_circ_ieee (rprs T14 T23 p : ℝ≥0∞) : Option ℝ≥0∞ :=
  if T23 ≤ T14 then
    some ((((2 * (rprs ^ 2) ^ ((1 : ℝ) / 4)) / ((T14 ^ 2 - T23 ^ 2) ^ ((1 : ℝ) / 2))) ^ 3) *
      ((3 * p) / (ENNReal.ofReal Gval * ENNReal.ofReal Real.pi ^ 2)))
  else none

/-- `get_g_from_def` (lines 252-268): `g = (1+e*np.sin(w))/np.sqrt(1-e**2)`.
Note that the source applies `np.sin` to `w` directly, with no degree-to-radian
conversion. -/
noncomputable def get_g_from_def (e w : ℝ) : ℝ :=
  (1 + e * Real.sin w) / Real.sqrt (1 - e ^ 2)

/-- `get_e` (lines 271-287):
`e = (sqrt(2)*sqrt(2*g**4 - g**2*cos(2*w) - g**2 - 2*sin(w)))/(2*(g**2 + sin(w)**2))`. -/
noncomputable def get_e (g w : ℝ) : ℝ :=
  (Real.sqrt 2 * Real.sqrt (2 * g ^ 4 - g ^ 2 * Real.cos (2 * w) - g ^ 2 - 2 * Real.sin w)) /
    (2 * (g ^ 2 + Real.sin w ^ 2))

/-- `get_e_from_def` (lines 475-494): numerator and denominator built
separately in the source, but the same expression as `get_e`. -/
noncomputable def get_e_from_def (g w : ℝ) : ℝ :=
  (Real.sqrt 2 * Real.sqrt (2 * g ^ 4 - g ^ 2 * Real.cos (2 * w) - g ^ 2 - 2 * Real.sin w)) /
    (2 * (g ^ 2 + Real.sin w ^ 2))

/-- Ascending insertion of one element, the step of the sort underlying
`np.percentile`. -/
noncomputable def insertSorted (x : ℝ) : List ℝ → List ℝ
  | [] => [x]
  | y :: ys => if x ≤ y then x :: y :: ys else y :: insertSorted x ys

/-- Ascending sort of the data, as `np.percentile` performs internally. -/
noncomputable def sortList (xs : List ℝ) : List ℝ :=
  xs.foldr insertSorted []

/-- Linear-interpolation percentile of an already sorted nonempty list `ys`,
NumPy's default method: `pos = (q/100)*(n-1)`, `i = floor(pos)`,
`result = ys[i] + (pos-i)*(ys[min(i+1,n-1)] - ys[i])`. -/
noncomputable def percAux (ys : List ℝ) (q : ℝ) : ℝ :=
  let pos : ℝ := (q / 100) * ((ys.length : ℝ) - 1)
  let i : ℕ := (Int.floor pos).toNat
  let j : ℕ := min (i + 1) (ys.length - 1)
  ys.getD i 0 + (pos - (Int.floor pos : ℝ)) * (ys.getD j 0 - ys.getD i 0)

/-- `np.percentile(xs, q)` (linear interpolation); `none` when there is no
data. -/
noncomputable def percentileList (xs : List ℝ) (q : ℝ) : Option ℝ :=
  if xs = [] then none else some (percAux (sortList xs) q)

/-- `np.nanpercentile(dist, q)`: the percentile of the non-NaN entries; an
all-NaN input yields NaN (`none`), with a RuntimeWarning but no exception. -/
noncomputable def nanpercentile (dist : List (Option ℝ)) (q : ℝ) : Option ℝ :=
  percentileList (dist.filterMap id) q

/-- Subtraction of doubles with NaN propagation (`NaN - x = NaN`). -/
noncomputable def osub : Option ℝ → Option ℝ → Option ℝ
  | some a, some b => some (a - b)
  | _, _ => none

/-- `get_sigmas` (lines 454-473):
`(nanpercentile(dist,50) - nanpercentile(dist,16),
  nanpercentile(dist,84) - nanpercentile(dist,50))`. -/
noncomputable def get_sigmas (dist : List (Option ℝ)) : Option ℝ × Option ℝ :=
  (osub (nanpercentile dist 50) (nanpercentile dist 16),
   osub (nanpercentile dist 84) (nanpercentile dist 50))

/-- `np.mean` of a pair of doubles, with NaN propagation. -/
noncomputable def omean : Option ℝ → Option ℝ → Option ℝ
  | some a, some b => some ((a + b) / 2)
  | _, _ => none

/-- Point estimate extracted by `mcmc_fitter` for one parameter column of the
flattened chain (line 676): `np.percentile(flat_samples[:,i], 50)`. -/
noncomputable def mcmc_result (xs : List ℝ) : Option ℝ :=
  percentileList xs 50

/-- Uncertainty extracted by `mcmc_fitter` for one parameter column
(line 677): `np.mean((np.percentile(xs,16), np.percentile(xs,84)))` — the
mean of the two percentiles themselves. -/
noncomputable def mcmc_result_err (xs : List ℝ) : Option ℝ :=
  omean (percentileList xs 16) (percentileList xs 84)

/-- Modelled from the spec (section 4.6), for comparison with
`mcmc_result_err`: the asymmetric uncertainty as the mean of the two
percentile gaps `(p50 - p16, p84 - p50)`. -/
noncomputable def spec_uncertainty (xs : List ℝ) : Option ℝ :=
  match percentileList xs 16, percentileList xs 50, percentileList xs 84 with
  | some a, some m, some b => some (((m - a) + (b - m)) / 2)
  | _, _, _ => none

/-- Forward model inlined in `log_likelihood` (line 529):
`model = (1+e*np.sin(w*(np.pi/180.)))/np.sqrt(1-e**2)` — here, unlike in
`get_g_from_def`, `w` is converted from degrees to radians. -/
noncomputable def g_model (w e : ℝ) : ℝ :=
  (1 + e * Real.sin (w * (Real.pi / 180))) / Real.sqrt (1 - e ^ 2)

/-- `log_likelihood` (lines 523-531), with `theta = (w, e)`:
`-0.5 * sum((g - model)**2/gerr**2 + log(gerr**2))`. -/
noncomputable def log_likelihood (theta : ℝ × ℝ) (g gerr : List ℝ) : ℝ :=
  -0.5 * (((g.zip gerr).map
    (fun pr => (pr.1 - g_model theta.1 theta.2) ^ 2 / pr.2 ^ 2 + Real.log (pr.2 ^ 2))).sum)

/-- `log_prior` (lines 533-541), with `theta = (w, e)`: `0.0` when
`0 < e < 1 and -90 < w < 300`, else `-inf` (modelled as `none`). -/
noncomputable def log_prior (theta : ℝ × ℝ) : Option ℝ :=
  if 0 < theta.2 ∧ theta.2 < 1 ∧ -90 < theta.1 ∧ theta.1 < 300 then some 0 else none

/-- `log_probability` (lines 543-549): `-inf` (`none`) when the prior is not
finite, else `log_prior + log_likelihood`. -/
noncomputable def log_probability (theta : ℝ × ℝ) (g gerr : List ℝ) : Option ℝ :=
  match log_prior theta with
  | none => none
  | some lp => some (lp + log_likelihood theta g gerr)

/-- `tfit_log_likelihood` (lines 553-564), with `theta = (per, rp, a, inc)`.
The transit forward model `planetlc_fitter` delegates to the external
`batman` capability (out of the repository's core, per the spec), so it is a
parameter `lc` here; the source calls it with `w = 0.0` and `e = 0` fixed. -/
noncomputable def tfit_log_likelihood (lc : List ℝ → ℝ → ℝ → ℝ → ℝ → ℝ → List ℝ)
    (theta : ℝ × ℝ × ℝ × ℝ) (time flux flux_err : List ℝ) : ℝ :=
  -0.5 * ((((flux.zip (lc time theta.1 theta.2.1 theta.2.2.1 theta.2.2.2 0)).zip flux_err).map
    (fun pr => (pr.1.1 - pr.1.2) ^ 2 / pr.2 ^ 2 + Real.log (pr.2 ^ 2))).sum)

/-- `tfit_log_prior` (lines 568-579): `0.0` when `0 < rp < 1 and
0 < inc < 90`, else `-inf` (`none`). -/
noncomputable def tfit_log_prior (theta : ℝ × ℝ × ℝ × ℝ) : Option ℝ :=
  if 0 < theta.2.1 ∧ theta.2.1 < 1 ∧ 0 < theta.2.2.2 ∧ theta.2.2.2 < 90 then some 0 else none

/-- `tfit_log_probability` (lines 581-588): same short-circuit structure as
`log_probability`. -/
noncomputable def tfit_log_probability (lc : List ℝ → ℝ → ℝ → ℝ → ℝ → ℝ → List ℝ)
    (theta : ℝ × ℝ × ℝ × ℝ) (time flux flux_err : List ℝ) : Option ℝ :=
  match tfit_log_prior theta with
  | none => none
  | some lp => some (lp + tfit_log_likelihood lc theta time flux flux_err)

/-! Helper lemmas shared between claims. -/

lemma filterMap_id_map_some (l : List ℝ) : (l.map some).filterMap id = l := by
  simp

/-! Claim theorems. -/

/-- Claim C2: for every input with a (physically meaningful) nonnegative
radius ratio, `get_rho_circ(rprs, T14, T23, p)` returns NaN whenever
`T14 < T23`, and whenever `T14 ≥ T23` it returns the closed-form value
`[2*rprs^0.5/sqrt(T14^2-T23^2)]^3 * (3p)/(G*pi^2)`; no exception is raised in
the `T14 < T23` case (the model is total). -/
theorem C2_rho_circ_branches (rprs T14 T23 p : ℝ) (hk : 0 ≤ rprs) :
    (T14 < T23 → get_rho_circ rprs T14 T23 p = none) ∧
    (T23 ≤ T14 → get_rho_circ rprs T14 T23 p =
      some (((2 * Real.sqrt rprs / Real.sqrt (T14 ^ 2 - T23 ^ 2)) ^ 3) *
        ((3 * p) / (Gval * Real.pi ^ 2)))) := by
  constructor
  · intro h
    rw [get_rho_circ, if_neg (not_le.mpr h)]
  · intro h
    rw [get_rho_circ, if_pos h, Real.sqrt_sq hk]

/-- Witness for C2 at `rprs = 1`, `p = 1`, and the two duration orderings
`(T14, T23) = (1, 2)` and `(2, 1)`. -/
theorem C2_rho_circ_branches_witness :
    get_rho_circ 1 1 2 1 = none ∧
    get_rho_circ 1 2 1 1 =
      some (((2 * Real.sqrt 1 / Real.sqrt ((2 : ℝ) ^ 2 - 1 ^ 2)) ^ 3) *
        ((3 * 1) / (Gval * Real.pi ^ 2))) := by
  constructor
  · exact (C2_rho_circ_branches 1 1 2 1 (by norm_num)).1 (by norm_num)
  · exact (C2_rho_circ_branches 1 2 1 1 (by norm_num)).2 (by norm_num)

/-- Counterexample to claim C4: with `ecc_prior=True` on equal-length
two-element inputs, `get_T14` does not return an array at all — the early
return inside the loop yields a scalar. -/
theorem C4_counterexample :
    (get_T14 [1, 1] [0.1, 0.1] [2, 2] [90, 90] true [0, 0] [0, 0]).1.isArr = false := rfl

/-- Claim C4 as amended: with `ecc_prior=True` and nonempty equal-length
inputs, `get_T14` (and likewise `get_T23`) returns the scalar duration of
index 0 only, multiplied by the eccentricity factor
`chi = sqrt(1-e[0]^2)/(1+e[0]*sin(w[0]*pi/180))`; the remaining elements are
never computed, and `get_T14` additionally leaves `p[0]` rescaled by 86400. -/
theorem C4_amended (p0 k0 a0 i0 e0 w0 : ℝ) (pt kt at1 it1 et wt : List ℝ) :
    get_T14 (p0 :: pt) (k0 :: kt) (a0 :: at1) (i0 :: it1) true (e0 :: et) (w0 :: wt) =
      (PyRet.scalar (((p0 * 86400) / Real.pi) *
        Real.arcsin ((1 / a0) *
          Real.sqrt ((1 + k0) ^ 2 - (a0 * Real.cos (i0 * (Real.pi / 180))) ^ 2) /
          Real.sin (i0 * (Real.pi / 180))) *
        (Real.sqrt (1 - e0 ^ 2) / (1 + e0 * Real.sin (w0 * (Real.pi / 180))))),
       (p0 * 86400) :: pt) ∧
    get_T23 (p0 :: pt) (k0 :: kt) (a0 :: at1) (i0 :: it1) true (e0 :: et) (w0 :: wt) =
      (PyRet.scalar ((p0 / Real.pi) *
        Real.arcsin ((1 / a0) *
          Real.sqrt ((1 - k0) ^ 2 - (a0 * Real.cos (i0 * (Real.pi / 180))) ^ 2) /
          Real.sin (i0 * (Real.pi / 180))) *
        (Real.sqrt (1 - e0 ^ 2) / (1 + e0 * Real.sin (w0 * (Real.pi / 180))))),
       p0 :: pt) :=
  ⟨rfl, rfl⟩

/-- Counterexample to claim C5: `get_T14` is not pure — after
`get_T14([1], [1], [2], [90], ecc_prior=False)` the caller's period array no
longer holds `[1]` (it holds `[86400]`). -/
theorem C5_counterexample : (get_T14 [1] [1] [2] [90] false [] []).2 ≠ [1] := by
  intro h
  simp [get_T14, T14core] at h

/-- Claim C5 as amended: `get_T23` leaves the caller's period array unchanged
in every case, but `get_T14` with `ecc_prior=False` overwrites every entry of
the caller's period array with its value multiplied by 86400 (the
days-to-seconds conversion mutates the caller's sequence). -/
theorem C5_amended (p rprs a_rs i : List ℝ) (ecc_pr : Bool) (e w : List ℝ) :
    (get_T14 p rprs a_rs i false e w).2 = p.map (fun x => x * 86400) ∧
    (get_T23 p rprs a_rs i ecc_pr e w).2 = p :=
  ⟨rfl, rfl⟩

/-- Claim C9: `get_sigmas` computes `(p50 - p16, p84 - p50)` over the
non-NaN values only — inserting or removing NaN entries never changes the
result — and on an input consisting entirely of NaN values it returns
`(NaN, NaN)` (the model is total: nothing is raised). -/
theorem C9_get_sigmas (dist : List (Option ℝ)) :
    get_sigmas dist = get_sigmas ((dist.filterMap id).map some) ∧
    ((∀ x ∈ dist, x = none) → get_sigmas dist = (none, none)) := by
  constructor
  · unfold get_sigmas nanpercentile
    rw [filterMap_id_map_some]
  · intro h
    have hnil : dist.filterMap id = [] := by
      rw [List.filterMap_eq_nil_iff]
      exact h
    unfold get_sigmas nanpercentile percentileList
    rw [hnil]
    simp [osub]

/-- Witness for C9 on the all-NaN input `[NaN]`. -/
theorem C9_get_sigmas_witness : get_sigmas [none] = (none, none) :=
  (C9_get_sigmas [none]).2 (by simp)

/-- Claim C6: `log_probability(theta, g, gerr)` returns `-inf` (`none`)
exactly when `theta = (w, e)` is outside the prior support (`e ∉ (0,1)` or
`w ∉ (-90, 300)`), and returns the bare log-likelihood (log-prior `0`) inside
the support; `tfit_log_probability` behaves the same way with support
`rp ∈ (0,1)` and `inc ∈ (0,90)`, for every forward model `lc`. -/
theorem C6_posterior_support (th : ℝ × ℝ) (g gerr : List ℝ)
    (lc : List ℝ → ℝ → ℝ → ℝ → ℝ → ℝ → List ℝ) (th4 : ℝ × ℝ × ℝ × ℝ)
    (time flux ferr : List ℝ) :
    (log_probability th g gerr = none ↔
      ¬ (0 < th.2 ∧ th.2 < 1 ∧ -90 < th.1 ∧ th.1 < 300)) ∧
    ((0 < th.2 ∧ th.2 < 1 ∧ -90 < th.1 ∧ th.1 < 300) →
      log_probability th g gerr = some (log_likelihood th g gerr)) ∧
    (tfit_log_probability lc th4 time flux ferr = none ↔
      ¬ (0 < th4.2.1 ∧ th4.2.1 < 1 ∧ 0 < th4.2.2.2 ∧ th4.2.2.2 < 90)) ∧
    ((0 < th4.2.1 ∧ th4.2.1 < 1 ∧ 0 < th4.2.2.2 ∧ th4.2.2.2 < 90) →
      tfit_log_probability lc th4 time flux ferr =
        some (tfit_log_likelihood lc th4 time flux ferr)) := by
  refine ⟨?_, ?_, ?_, ?_⟩
  · by_cases h : 0 < th.2 ∧ th.2 < 1 ∧ -90 < th.1 ∧ th.1 < 300
    · rw [log_probability, log_prior, if_pos h]
      simp [h]
    · rw [log_probability, log_prior, if_neg h]
      simp [h]
  · intro h
    rw [log_probability, log_prior, if_pos h]
    simp
  · by_cases h : 0 < th4.2.1 ∧ th4.2.1 < 1 ∧ 0 < th4.2.2.2 ∧ th4.2.2.2 < 90
    · rw [tfit_log_probability, tfit_log_prior, if_pos h]
      simp [h]
    · rw [tfit_log_probability, tfit_log_prior, if_neg h]
      simp [h]
  · intro h
    rw [tfit_log_probability, tfit_log_prior, if_pos h]
    simp

/-- Witness for C6: inside-support and outside-support evaluations at
concrete parameter vectors `(w, e) = (0, 1/2)` (inside), `(0, 2)` (outside),
and `(per, rp, a, inc) = (1, 1/2, 10, 45)` (inside). -/
theorem C6_posterior_support_witness :
    log_probability (0, 1 / 2) [1] [1] = some (log_likelihood (0, 1 / 2) [1] [1]) ∧
    log_probability (0, 2) [1] [1] = none ∧
    tfit_log_probability (fun _ _ _ _ _ _ => []) (1, 1 / 2, 10, 45) [1] [1] [1] =
      some (tfit_log_likelihood (fun _ _ _ _ _ _ => []) (1, 1 / 2, 10, 45) [1] [1] [1]) := by
  refine ⟨?_, ?_, ?_⟩
  · exact (C6_posterior_support (0, 1 / 2) [1] [1] (fun _ _ _ _ _ _ => [])
      (1, 1 / 2, 10, 45) [1] [1] [1]).2.1 (by norm_num)
  · exact (C6_posterior_support (0, 2) [1] [1] (fun _ _ _ _ _ _ => [])
      (1, 1 / 2, 10, 45) [1] [1] [1]).1.mpr (by norm_num)
  · exact (C6_posterior_support (0, 1 / 2) [1] [1] (fun _ _ _ _ _ _ => [])
      (1, 1 / 2, 10, 45) [1] [1] [1]).2.2.2 (by norm_num)

/-- Counterexample to claim C8: the inline likelihood model and
`get_g_from_def` are not the same function of `(e, w)` at the same
longitude-of-periastron argument — at `w = 1` (degrees) and `e = 1/2` the
likelihood model uses `sin(1 * pi/180)` while `get_g_from_def` uses `sin 1`
(radians), and these differ. -/
theorem C8_counterexample : g_model 1 (1 / 2) ≠ get_g_from_def (1 / 2) 1 := by
  intro h
  rw [g_model, get_g_from_def] at h
  have hs : (0 : ℝ) < Real.sqrt (1 - (1 / 2 : ℝ) ^ 2) := by
    rw [Real.sqrt_pos]
    norm_num
  have h1 : Real.sin (1 * (Real.pi / 180)) = Real.sin 1 := by
    rw [div_eq_div_iff hs.ne' hs.ne'] at h
    have h2 := mul_right_cancel₀ hs.ne' h
    linarith [h2]
  have hmem1 : 1 * (Real.pi / 180) ∈ Set.Icc (-(Real.pi / 2)) (Real.pi / 2) := by
    constructor <;> [linarith [Real.pi_pos]; linarith [Real.pi_pos]]
  have hmem2 : (1 : ℝ) ∈ Set.Icc (-(Real.pi / 2)) (Real.pi / 2) := by
    constructor <;> [linarith [Real.pi_pos]; linarith [Real.pi_gt_three]]
  have heq := Real.injOn_sin hmem1 hmem2 h1
  have hlt := Real.pi_lt_d2
  linarith [heq]

/-- Claim C8 as amended: the model inlined in `log_likelihood` is
`get_g_from_def` applied to the longitude of periastron converted from
degrees to radians, `g_model(w, e) = get_g_from_def(e, w * pi/180)`; the two
agree as functions of `(e, w)` only after that unit conversion. -/
theorem C8_amended (w e : ℝ) : g_model w e = get_g_from_def e (w * (Real.pi / 180)) := rfl

lemma sortList_pair_sorted (a b : ℝ) (hab : a ≤ b) : sortList [a, b] = [a, b] := by
  unfold sortList
  simp [insertSorted, hab]

lemma percAux_pair (a b q : ℝ) (h0 : 0 ≤ q / 100) (h1 : q / 100 < 1) :
    percAux [a, b] q = a + (q / 100) * (b - a) := by
  have hfl : ⌊(q / 100) * ((([a, b] : List ℝ).length : ℝ) - 1)⌋ = 0 := by
    have hl : ((([a, b] : List ℝ).length : ℝ) - 1) = 1 := by norm_num
    rw [hl, mul_one]
    exact Int.floor_eq_zero_iff.mpr ⟨h0, h1⟩
  simp only [percAux, hfl]
  norm_num

lemma percentileList_pair (a b q : ℝ) (hab : a ≤ b) (h0 : 0 ≤ q / 100) (h1 : q / 100 < 1) :
    percentileList [a, b] q = some (a + (q / 100) * (b - a)) := by
  unfold percentileList
  rw [if_neg (by simp), sortList_pair_sorted a b hab, percAux_pair a b q h0 h1]

/-- Claim C7 is contradicted by the code: on the flattened sample `[0, 10]`
(percentiles `p16 = 8/5`, `p50 = 5`, `p84 = 42/5`) the point estimate is the
50th percentile as claimed, but `mcmc_fitter` reports the uncertainty
`np.mean((p16, p84)) = 5` — the mean of the two percentiles themselves —
whereas the claimed mean of the percentile gaps `(p50-p16, p84-p50)` is
`17/5`. -/
theorem C7_mcmc_uncertainty_bug :
    mcmc_result [0, 10] = some 5 ∧
    mcmc_result_err [0, 10] = some 5 ∧
    spec_uncertainty [0, 10] = some (17 / 5) ∧
    mcmc_result_err [0, 10] ≠ spec_uncertainty [0, 10] := by
  have h16 := percentileList_pair 0 10 16 (by norm_num) (by norm_num) (by norm_num)
  have h50 := percentileList_pair 0 10 50 (by norm_num) (by norm_num) (by norm_num)
  have h84 := percentileList_pair 0 10 84 (by norm_num) (by norm_num) (by norm_num)
  have e16 : percentileList [(0 : ℝ), 10] 16 = some (8 / 5) := by rw [h16]; norm_num
  have e50 : percentileList [(0 : ℝ), 10] 50 = some 5 := by rw [h50]; norm_num
  have e84 : percentileList [(0 : ℝ), 10] 84 = some (42 / 5) := by rw [h84]; norm_num
  refine ⟨?_, ?_, ?_, ?_⟩
  · rw [mcmc_result, e50]
  · rw [mcmc_result_err, e16, e84]
    simp [omean]
    norm_num
  · rw [spec_uncertainty, e16, e50, e84]
    norm_num
  · rw [mcmc_result_err, spec_uncertainty, e16, e50, e84]
    simp [omean]
    norm_num

/-- Claim C10: at the exact domain boundary `T14 == T23` (with `0 < rprs`
finite and `0 < p` finite), `get_rho_circ` takes the computed branch and
divides by `sqrt(T14^2 - T23^2) = 0`, producing positive infinity (`⊤` in
the IEEE-faithful `ℝ≥0∞` model) rather than NaN; the NaN marker (`none`) is
produced exactly for the strict inequality `T14 < T23`. -/
theorem C10_rho_circ_boundary (rprs T14 p : ℝ≥0∞)
    (h1 : 0 < rprs) (h2 : rprs ≠ ⊤) (h3 : 0 < p) (h4 : p ≠ ⊤) (h5 : T14 ≠ ⊤) :
    get_rho_circ_ieee rprs T14 T14 p = some ⊤ ∧
    (∀ T23v pv, get_rho_circ_ieee rprs T14 T23v pv = none ↔ T14 < T23v) := by
  constructor
  · rw [get_rho_circ_ieee, if_pos le_rfl]
    have hsub : T14 ^ 2 - T14 ^ 2 = (0 : ℝ≥0∞) := tsub_self _
    rw [hsub, ENNReal.zero_rpow_of_pos (by norm_num)]
    have hb0 : rprs ^ 2 ≠ 0 := pow_ne_zero 2 h1.ne'
    have hbt : rprs ^ 2 ≠ ⊤ := ENNReal.pow_ne_top h2
    have hnum : 2 * (rprs ^ 2) ^ ((1 : ℝ) / 4) ≠ 0 := by
      apply mul_ne_zero
      · exact two_ne_zero
      · rw [Ne, ENNReal.rpow_eq_zero_iff]
        push_neg
        refine ⟨fun hz => absurd hz hb0, fun ht => absurd ht hbt⟩
    rw [ENNReal.div_zero hnum, ENNReal.top_pow (by norm_num)]
    have harg : (3 * p) / (ENNReal.ofReal Gval * ENNReal.ofReal Real.pi ^ 2) ≠ 0 := by
      rw [Ne, ENNReal.div_eq_zero_iff]
      push_neg
      constructor
      · exact mul_ne_zero (by norm_num) h3.ne'
      · exact ENNReal.mul_ne_top ENNReal.ofReal_ne_top (ENNReal.pow_ne_top ENNReal.ofReal_ne_top)
    rw [ENNReal.top_mul harg]
  · intro T23v pv
    rw [get_rho_circ_ieee]
    split_ifs with h
    · simp [not_lt.mpr h]
    · simp [lt_of_not_le h]

/-- Witness for C10 at `rprs = 1`, `T14 = T23 = 1`, `p = 1` (and the NaN
branch at `T23 = 2`). -/
theorem C10_rho_circ_boundary_witness :
    get_rho_circ_ieee 1 1 1 1 = some ⊤ ∧ get_rho_circ_ieee 1 1 2 1 = none := by
  have h := C10_rho_circ_boundary 1 1 1 zero_lt_one ENNReal.one_ne_top zero_lt_one
    ENNReal.one_ne_top ENNReal.one_ne_top
  exact ⟨h.1, (h.2 2 1).mpr ENNReal.one_lt_two⟩

/-- Claim C1 is contradicted by the code: at `(e, w) = (1/2, pi/2)` the
radicand of the inverse is `16 ≥ 0` (so the point is inside the claimed
domain), `get_g_from_def(1/2, pi/2) = sqrt 3`, yet
`get_e(sqrt 3, pi/2) = get_e_from_def(sqrt 3, pi/2) = sqrt 2 / 2 ≈ 0.707`,
which is not the original eccentricity `1/2`: the round trip fails. -/
theorem C1_roundtrip_fails :
    get_g_from_def (1 / 2) (Real.pi / 2) = Real.sqrt 3 ∧
    2 * Real.sqrt 3 ^ 4 - Real.sqrt 3 ^ 2 * Real.cos (2 * (Real.pi / 2)) - Real.sqrt 3 ^ 2 -
        2 * Real.sin (Real.pi / 2) = 16 ∧
    get_e (Real.sqrt 3) (Real.pi / 2) = Real.sqrt 2 / 2 ∧
    get_e_from_def (Real.sqrt 3) (Real.pi / 2) = Real.sqrt 2 / 2 ∧
    Real.sqrt 2 / 2 ≠ 1 / 2 := by
  have h3nn : (0 : ℝ) ≤ 3 := by norm_num
  have hsq3 : Real.sqrt 3 ^ 2 = 3 := Real.sq_sqrt h3nn
  have hsq3m : Real.sqrt 3 * Real.sqrt 3 = 3 := Real.mul_self_sqrt h3nn
  have h4 : Real.sqrt 3 ^ 4 = 9 := by
    have hh : Real.sqrt 3 ^ 4 = (Real.sqrt 3 ^ 2) ^ 2 := by ring
    rw [hh, hsq3]
    norm_num
  have hcos : Real.cos (2 * (Real.pi / 2)) = -1 := by
    rw [show 2 * (Real.pi / 2) = Real.pi from by ring, Real.cos_pi]
  have hrad : 2 * Real.sqrt 3 ^ 4 - Real.sqrt 3 ^ 2 * Real.cos (2 * (Real.pi / 2)) -
      Real.sqrt 3 ^ 2 - 2 * Real.sin (Real.pi / 2) = 16 := by
    rw [h4, hsq3, hcos, Real.sin_pi_div_two]
    norm_num
  have hg : get_g_from_def (1 / 2) (Real.pi / 2) = Real.sqrt 3 := by
    rw [get_g_from_def, Real.sin_pi_div_two, show (1 : ℝ) - (1 / 2) ^ 2 = 3 / 4 from by norm_num]
    have hs34 : Real.sqrt (3 / 4) = Real.sqrt 3 / 2 := by
      rw [show (3 / 4 : ℝ) = (Real.sqrt 3 / 2) ^ 2 from by rw [div_pow, hsq3]; norm_num]
      exact Real.sqrt_sq (by positivity)
    rw [hs34, div_eq_iff (by positivity : Real.sqrt 3 / 2 ≠ 0)]
    nlinarith [hsq3m]
  have he : get_e (Real.sqrt 3) (Real.pi / 2) = Real.sqrt 2 / 2 := by
    rw [get_e, hrad, show (16 : ℝ) = 4 ^ 2 from by norm_num,
      Real.sqrt_sq (by norm_num : (0 : ℝ) ≤ 4), hsq3, Real.sin_pi_div_two]
    ring
  have he2 : get_e_from_def (Real.sqrt 3) (Real.pi / 2) = Real.sqrt 2 / 2 := he
  have hne : Real.sqrt 2 / 2 ≠ 1 / 2 := by
    intro h
    have h1 : Real.sqrt 2 = 1 := by linarith
    have h2 : Real.sqrt 2 * Real.sqrt 2 = 2 := Real.mul_self_sqrt (by norm_num)
    rw [h1] at h2
    norm_num at h2
  exact ⟨hg, hrad, he, he2, hne⟩

/-- The parenthesisation that the source's docstring evidently intends
(moving `- 2*sin(w)` outside the inner square root of `get_e`) is the exact
closed-form inverse of `get_g_from_def`: with it the round trip of claim C1
does hold (shown here for `0 ≤ e < 1` and `0 ≤ sin w`).  This supports
reading the radicand of `get_e`/`get_e_from_def` as a slip in the code. -/
lemma corrected_inverse_roundtrip (e w : ℝ) (he0 : 0 ≤ e) (he1 : e < 1)
    (hs : 0 ≤ Real.sin w) :
    (Real.sqrt 2 * Real.sqrt (2 * get_g_from_def e w ^ 4 -
        get_g_from_def e w ^ 2 * Real.cos (2 * w) - get_g_from_def e w ^ 2) -
      2 * Real.sin w) / (2 * (get_g_from_def e w ^ 2 + Real.sin w ^ 2)) = e := by
  have hcos2 : Real.cos (2 * w) = 1 - 2 * Real.sin w ^ 2 := by
    rw [Real.cos_two_mul', Real.cos_sq']
    ring
  have h1e : (0 : ℝ) < 1 - e ^ 2 := by nlinarith
  have hg2 : get_g_from_def e w ^ 2 = (1 + e * Real.sin w) ^ 2 / (1 - e ^ 2) := by
    rw [get_g_from_def, div_pow, Real.sq_sqrt h1e.le]
  have hnum_nn : (0 : ℝ) ≤ 1 + e * Real.sin w := by nlinarith
  have hA_nn : (0 : ℝ) ≤ (1 + e * Real.sin w) * (e + Real.sin w) / (1 - e ^ 2) :=
    div_nonneg (mul_nonneg hnum_nn (by linarith)) h1e.le
  have hdisc : 2 * get_g_from_def e w ^ 4 - get_g_from_def e w ^ 2 * Real.cos (2 * w) -
      get_g_from_def e w ^ 2 =
      2 * ((1 + e * Real.sin w) * (e + Real.sin w) / (1 - e ^ 2)) ^ 2 := by
    rw [hcos2, show get_g_from_def e w ^ 4 = (get_g_from_def e w ^ 2) ^ 2 from by ring, hg2]
    field_simp
    ring
  have hsqrtdisc : Real.sqrt (2 * get_g_from_def e w ^ 4 -
      get_g_from_def e w ^ 2 * Real.cos (2 * w) - get_g_from_def e w ^ 2) =
      Real.sqrt 2 * ((1 + e * Real.sin w) * (e + Real.sin w) / (1 - e ^ 2)) := by
    rw [hdisc, Real.sqrt_mul (by norm_num : (0 : ℝ) ≤ 2), Real.sqrt_sq hA_nn]
  have h2m : Real.sqrt 2 * Real.sqrt 2 = 2 := Real.mul_self_sqrt (by norm_num)
  have hden_pos : (0 : ℝ) < (1 + e * Real.sin w) ^ 2 / (1 - e ^ 2) + Real.sin w ^ 2 := by
    have hp : (0 : ℝ) < (1 + e * Real.sin w) ^ 2 / (1 - e ^ 2) := by
      apply div_pos _ h1e
      have : (0 : ℝ) < 1 + e * Real.sin w := by nlinarith
      positivity
    positivity
  rw [hsqrtdisc, ← mul_assoc, h2m, hg2]
  rw [div_eq_iff (by positivity : (2 : ℝ) * ((1 + e * Real.sin w) ^ 2 / (1 - e ^ 2) + Real.sin w ^ 2) ≠ 0)]
  field_simp
  ring

lemma T23elem_le_T14elem (pj kj aj ij : ℝ) (hp : 0 ≤ pj) (hk : 0 ≤ kj)
    (ha : 0 < aj) (hs : 0 < Real.sin (ij * (Real.pi / 180))) :
    T23elem pj kj aj ij ≤ T14elem pj kj aj ij := by
  rw [T14elem, T23elem]
  have hsqrt_le : Real.sqrt ((1 - kj) ^ 2 - (aj * Real.cos (ij * (Real.pi / 180))) ^ 2) ≤
      Real.sqrt ((1 + kj) ^ 2 - (aj * Real.cos (ij * (Real.pi / 180))) ^ 2) := by
    apply Real.sqrt_le_sqrt
    nlinarith
  have hx_le : (1 / aj) *
      Real.sqrt ((1 - kj) ^ 2 - (aj * Real.cos (ij * (Real.pi / 180))) ^ 2) /
      Real.sin (ij * (Real.pi / 180)) ≤ (1 / aj) *
      Real.sqrt ((1 + kj) ^ 2 - (aj * Real.cos (ij * (Real.pi / 180))) ^ 2) /
      Real.sin (ij * (Real.pi / 180)) := by
    apply (div_le_div_right hs).mpr
    apply mul_le_mul_of_nonneg_left hsqrt_le
    positivity
  have harc := Real.monotone_arcsin hx_le
  have hx14_nn : (0 : ℝ) ≤ (1 / aj) *
      Real.sqrt ((1 + kj) ^ 2 - (aj * Real.cos (ij * (Real.pi / 180))) ^ 2) /
      Real.sin (ij * (Real.pi / 180)) := by
    apply div_nonneg _ hs.le
    positivity
  have harc14_nn := Real.arcsin_nonneg.mpr hx14_nn
  have hcoef : 0 ≤ pj / Real.pi := div_nonneg hp Real.pi_pos.le
  calc (pj / Real.pi) *
        Real.arcsin ((1 / aj) *
          Real.sqrt ((1 - kj) ^ 2 - (aj * Real.cos (ij * (Real.pi / 180))) ^ 2) /
          Real.sin (ij * (Real.pi / 180)))
      ≤ (pj / Real.pi) *
        Real.arcsin ((1 / aj) *
          Real.sqrt ((1 + kj) ^ 2 - (aj * Real.cos (ij * (Real.pi / 180))) ^ 2) /
          Real.sin (ij * (Real.pi / 180))) := mul_le_mul_of_nonneg_left harc hcoef
    _ ≤ ((pj * 86400) / Real.pi) *
        Real.arcsin ((1 / aj) *
          Real.sqrt ((1 + kj) ^ 2 - (aj * Real.cos (ij * (Real.pi / 180))) ^ 2) /
          Real.sin (ij * (Real.pi / 180))) := by
        apply mul_le_mul_of_nonneg_right _ harc14_nn
        apply (div_le_div_right Real.pi_pos).mpr
        nlinarith

lemma T23core_le_T14core (p rprs a_rs i : List ℝ)
    (hp : ∀ x ∈ p, 0 ≤ x) (hk : ∀ x ∈ rprs, 0 ≤ x) (ha : ∀ x ∈ a_rs, 0 < x)
    (hs : ∀ x ∈ i, 0 < Real.sin (x * (Real.pi / 180))) :
    ∀ j, (T23core p rprs a_rs i).getD j 0 ≤ (T14core p rprs a_rs i).getD j 0 := by
  induction p generalizing rprs a_rs i with
  | nil => intro j; simp [T14core, T23core]
  | cons p0 pt ih =>
    intro j
    match rprs, a_rs, i with
    | [], _, _ => simp [T14core, T23core]
    | k0 :: kt, [], _ => simp [T14core, T23core]
    | k0 :: kt, a0 :: at1, [] => simp [T14core, T23core]
    | k0 :: kt, a0 :: at1, i0 :: it1 =>
      match j with
      | 0 =>
        simp only [T14core, T23core, List.getD_cons_zero]
        exact T23elem_le_T14elem p0 k0 a0 i0 (hp p0 (by simp)) (hk k0 (by simp))
          (ha a0 (by simp)) (hs i0 (by simp))
      | jn + 1 =>
        simp only [T14core, T23core, List.getD_cons_succ]
        exact ih kt at1 it1 (fun x hx => hp x (by simp [hx]))
          (fun x hx => hk x (by simp [hx])) (fun x hx => ha x (by simp [hx]))
          (fun x hx => hs x (by simp [hx])) jn

/-- Claim C3: for non-degenerate inputs (every period and radius ratio
nonnegative, every `a_rs` positive, every inclination with positive
`sin(i*pi/180)` — which covers the claimed `radius_ratio > 0` transiting
geometries), each element of the array returned by `get_T14` with
`ecc_prior=False` is at least the corresponding element returned by
`get_T23` on the same input values.  (Indeed `get_T14` additionally rescales
its result by the days-to-seconds factor 86400, which only widens the
inequality.) -/
theorem C3_T14_ge_T23 (p rprs a_rs i : List ℝ)
    (hp : ∀ x ∈ p, 0 ≤ x) (hk : ∀ x ∈ rprs, 0 ≤ x) (ha : ∀ x ∈ a_rs, 0 < x)
    (hs : ∀ x ∈ i, 0 < Real.sin (x * (Real.pi / 180))) (e w : List ℝ) :
    (get_T14 p rprs a_rs i false e w).1 = PyRet.array (T14core p rprs a_rs i) ∧
    (get_T23 p rprs a_rs i false e w).1 = PyRet.array (T23core p rprs a_rs i) ∧
    ∀ j, (T23core p rprs a_rs i).getD j 0 ≤ (T14core p rprs a_rs i).getD j 0 :=
  ⟨rfl, rfl, T23core_le_T14core p rprs a_rs i hp hk ha hs⟩

/-- Witness for C3 at the one-element input `p = [1]`, `rprs = [1/10]`,
`a_rs = [2]`, `i = [90]` (so `sin(90 * pi/180) = 1`), read off at index 0. -/
theorem C3_T14_ge_T23_witness :
    (T23core [1] [1 / 10] [2] [90]).getD 0 0 ≤ (T14core [1] [1 / 10] [2] [90]).getD 0 0 := by
  have hs : ∀ x ∈ ([90] : List ℝ), 0 < Real.sin (x * (Real.pi / 180)) := by
    intro x hx
    simp only [List.mem_singleton] at hx
    subst hx
    rw [show (90 : ℝ) * (Real.pi / 180) = Real.pi / 2 from by ring, Real.sin_pi_div_two]
    norm_num
  exact (C3_T14_ge_T23 [1] [1 / 10] [2] [90] (by norm_num) (by norm_num) (by norm_num) hs
    [] []).2.2 0
